import Mathlib

/-!
Verification of the pytarchive/pyarchive tape-archival daemon.

The repository contains two revisions of the same program: `pyarchive`
(older) and `pytarchive` (newer).  Definitions below are shallow
embeddings of the Python source; names follow the source.  The namespace
`PyA` holds code embedded from `src/pyarchive/...`, the namespace `PyT`
holds code embedded from `src/pytarchive/...`.  The file
`pytarchive/service/db.py` is imported by the pytarchive sources but is
not present in the repository; the definitions that stand in for it are
marked `Modelled from the spec:` and follow the specification text.
-/

set_option maxHeartbeats 1000000

/-- A catalog entry.  In the source a record is a JSON dictionary whose
keys appear gradually; a key that may be absent is represented by an
`Option` field (`none` = key absent). -/
structure ArchiveRecord where
  original_directory : String
  description : String
  state : String
  size : Option Int
  size_queried : Option String
  compressed : Option Bool
  tape : Option String
  path_on_tape : Option String
  archived : Option String
deriving DecidableEq, Repr

namespace PyA

/-- Embeds `JsonDatabase.set_prepared` (pyarchive/service/db.py, lines
57-67).  `now` stands for the `datetime.now().strftime(...)` timestamp
string.  A raised `ValueError` is the `.error` case; the entry is not
modified in that case. -/
def set_prepared (entry : ArchiveRecord) (size : Int) (now : String) :
    Except String ArchiveRecord :=
  if entry.state = "preparing" then
    .ok { entry with state := "prepared", size := some size, size_queried := some now }
  else
    .error ("Invalid state transition from " ++ entry.state ++ " to prepared.")

/-- Embeds `JsonDatabase.set_archiving_queued` (pyarchive/service/db.py,
lines 69-78). -/
def set_archiving_queued (entry : ArchiveRecord) (tape : String) :
    Except String ArchiveRecord :=
  if entry.state = "prepared" then
    .ok { entry with state := "archiving_queued", tape := some tape }
  else
    .error ("Invalid state transition from " ++ entry.state ++ " to archiving_queued.")

/-- Embeds `JsonDatabase.set_archiving` (pyarchive/service/db.py, lines
80-89). -/
def set_archiving (entry : ArchiveRecord) (path_on_tape : String) :
    Except String ArchiveRecord :=
  if entry.state = "archiving_queued" then
    .ok { entry with state := "archiving", path_on_tape := some path_on_tape }
  else
    .error ("Invalid state transition from " ++ entry.state ++ " to archiving.")

/-- Embeds `JsonDatabase.set_archived` (pyarchive/service/db.py, lines
91-100).  `now` stands for the timestamp string. -/
def set_archived (entry : ArchiveRecord) (now : String) :
    Except String ArchiveRecord :=
  if entry.state = "archiving" then
    .ok { entry with state := "archived", archived := some now }
  else
    .error ("Invalid state transition from " ++ entry.state ++ " to archived.")

end PyA

/-- C3: each catalog setter succeeds exactly from its unique source state
in the chain preparing -> prepared -> archiving_queued -> archiving ->
archived, advances the state to the next element on success while setting
only the fields the setter defines, and fails with an invalid-transition
error from every other state (the functional embedding returns `.error`
and produces no modified entry, so the entry is left unchanged). -/
theorem catalog_setters_follow_chain (entry : ArchiveRecord)
    (size : Int) (tape path now : String) :
    ((PyA.set_prepared entry size now).isOk ↔ entry.state = "preparing") ∧
    ((PyA.set_archiving_queued entry tape).isOk ↔ entry.state = "prepared") ∧
    ((PyA.set_archiving entry path).isOk ↔ entry.state = "archiving_queued") ∧
    ((PyA.set_archived entry now).isOk ↔ entry.state = "archiving") ∧
    (entry.state = "preparing" →
      PyA.set_prepared entry size now =
        .ok { entry with state := "prepared", size := some size,
                         size_queried := some now }) ∧
    (entry.state = "prepared" →
      PyA.set_archiving_queued entry tape =
        .ok { entry with state := "archiving_queued", tape := some tape }) ∧
    (entry.state = "archiving_queued" →
      PyA.set_archiving entry path =
        .ok { entry with state := "archiving", path_on_tape := some path }) ∧
    (entry.state = "archiving" →
      PyA.set_archived entry now =
        .ok { entry with state := "archived", archived := some now }) := by
  unfold PyA.set_prepared PyA.set_archiving_queued PyA.set_archiving PyA.set_archived
  refine ⟨?_, ?_, ?_, ?_, ?_, ?_, ?_, ?_⟩ <;>
    (split <;> simp_all [Except.isOk, Except.toBool])

/-- Witness for C3 at a concrete record in state `prepared`. -/
theorem catalog_setters_follow_chain_witness :
    (PyA.set_archiving_queued
        ⟨"/nas/p", "d", "prepared", some 5, some "Jan 01 2024 00:00:00",
          none, none, none, none⟩ "AAK123").isOk := by
  have h := catalog_setters_follow_chain
    ⟨"/nas/p", "d", "prepared", some 5, some "Jan 01 2024 00:00:00",
      none, none, none, none⟩ 7 "AAK123" "p" "t"
  exact h.2.1.mpr rfl

/-- One parsed slot of `mtx status` output: the library slot model that
`Library.get_status` produces (`status`, `volume_tag`, element type). -/
structure Slot where
  status : String
  volume_tag : Option String
  elem_type : String
deriving DecidableEq, Repr

/-- A parsed library status: slot index (0 = drive) paired with its slot
data, in parse order. -/
abbrev LibStatus := List (Nat × Slot)

namespace PyT

/-- Embeds `Library.find_tape` (pytarchive/service/library.py, lines
89-94): return the first slot whose volume tag equals the argument
exactly, else `None`.  The parsed status dictionary is passed explicitly
in place of the `get_status()` call. -/
def find_tape (slots : LibStatus) (volume_tag : String) : Option Nat :=
  (List.find? (fun p => p.2.volume_tag = some volume_tag) slots).map (fun p => p.1)

end PyT

/-- Character-level model of Python's `str.endswith` (used as
`volume_tag.endswith(...)` in the source); stated on the character list
so that concrete instances evaluate inside the kernel. -/
def pyEndsWith (s suffix : String) : Bool :=
  List.isSuffixOf suffix.data s.data

namespace PyA

/-- Embeds `Library.find_tape` (pyarchive/service/library.py, lines
81-90): the requested tag is adjusted by appending "L9" unless it already
ends in "L9" or "L1", and the slots are searched for the adjusted tag. -/
def find_tape (slots : LibStatus) (volume_tag : String) : Option Nat :=
  (List.find? (fun p =>
      p.2.volume_tag =
        some (if pyEndsWith volume_tag "L9" || pyEndsWith volume_tag "L1"
              then volume_tag else volume_tag ++ "L9")) slots).map (fun p => p.1)

end PyA

/-- Concrete library status drawn from `tests/test_library.py`
(`state_full`, abridged): the drive plus two storage slots. -/
def testSlots : LibStatus :=
  [(0, ⟨"Full", some "AAK787L9", "data_transfer_element"⟩),
   (2, ⟨"Full", some "CLN670L1", "storage_element"⟩),
   (21, ⟨"Full", some "AAK792L9", "storage_element"⟩)]

/-- C9 counterexample: the pyarchive revision of `find_tape` (cited by
the claim) does match by appending an "L9" suffix: asked for "AAK792" it
returns slot 21, although no slot's volume tag is exactly "AAK792" (slot
21 holds "AAK792L9").  This is the behavior asserted by
`tests/test_library.py` (`find_tape("AAK792") == 21`). -/
theorem find_tape_l9_suffix_counterexample :
    PyA.find_tape testSlots "AAK792" = some 21 ∧
    (∀ p, p ∈ testSlots → p.2.volume_tag ≠ some "AAK792") := by
  constructor
  · decide
  · decide

/-- C9 amended: the pytarchive revision of `find_tape` matches by exact
tag only: it returns a slot only when that slot's volume tag is exactly
(character for character) the argument, and `none` exactly when no slot
holds that exact tag.  The legacy pyarchive revision instead searches for
the exact adjusted tag (the argument with "L9" appended unless it already
ends in "L9" or "L1"). -/
theorem find_tape_exact_match (slots : LibStatus) (volume_tag : String) :
    (PyT.find_tape slots volume_tag = none ↔
      ∀ p, p ∈ slots → p.2.volume_tag ≠ some volume_tag) ∧
    (∀ s, PyT.find_tape slots volume_tag = some s →
      ∃ info, (s, info) ∈ slots ∧ info.volume_tag = some volume_tag) ∧
    PyA.find_tape slots volume_tag =
      PyT.find_tape slots
        (if pyEndsWith volume_tag "L9" || pyEndsWith volume_tag "L1"
         then volume_tag else volume_tag ++ "L9") := by
  refine ⟨?_, ?_, rfl⟩
  · unfold PyT.find_tape
    rw [Option.map_eq_none']
    rw [List.find?_eq_none]
    constructor
    · intro h p hp
      have := h p hp
      simpa using this
    · intro h p hp
      simpa using h p hp
  · intro s hs
    unfold PyT.find_tape at hs
    rcases Option.map_eq_some'.mp hs with ⟨p, hfind, hfst⟩
    refine ⟨p.2, ?_, ?_⟩
    · have hm := List.mem_of_find?_eq_some hfind
      rcases p with ⟨a, b⟩
      cases hfst
      simpa using hm
    · have := List.find?_some hfind
      simpa using this

/-- Witness for C9's amended theorem at a concrete status: "AAK792L9" is
found in slot 21, "AAK792" is not found at all by the pytarchive
revision. -/
theorem find_tape_exact_match_witness :
    PyT.find_tape testSlots "AAK792" = none ∧
    PyT.find_tape testSlots "AAK792L9" = some 21 := by
  constructor
  · exact (find_tape_exact_match testSlots "AAK792").1.mpr (by decide)
  · rfl

/-- Python's `subprocess.CalledProcessError(returncode, cmd, output,
stderr)` as raised by both revisions of `run_command`. -/
structure CalledProcessError where
  returncode : Int
  cmd : String
  output : String
  stderr : String
deriving DecidableEq, Repr

namespace PyA

/-- Embeds the completion logic of `run_command`
(pyarchive/service/utils.py, lines 71-81), the code that runs after the
child has been reaped.  `abort` is the state of the caller's
`abort_event` at that moment (`none` = no event passed); `exit_code` is
the child's exit status; `stdout`/`stderr` are the accumulated streams.
If the event is set the function returns `(stdout, stderr)` normally;
otherwise a non-zero exit raises `CalledProcessError`; a zero exit
returns `(stdout, stderr)`. -/
def run_command (abort : Option Bool) (exit_code : Int)
    (cmd stdout stderr : String) : Except CalledProcessError (String × String) :=
  if abort = some true then
    .ok (stdout, stderr)
  else if exit_code ≠ 0 then
    .error ⟨exit_code, cmd, stdout, stderr⟩
  else
    .ok (stdout, stderr)

end PyA

namespace PyT

/-- Embeds the completion logic of `run_command`
(pytarchive/service/command_runner.py, lines 75-96), the code after
`await process.wait()`: this revision raises `CalledProcessError` exactly
when the abort event is set, and returns `(stdout, stderr)` otherwise —
the child's exit code is never inspected. -/
def run_command (abort : Option Bool) (exit_code : Int)
    (cmd stdout stderr : String) : Except CalledProcessError (String × String) :=
  if abort = some true then
    .error ⟨exit_code, cmd, stdout, stderr⟩
  else
    .ok (stdout, stderr)

end PyT

/-- C2 (code_bug): evaluating both revisions of `run_command` at the
claim's inputs.  The pyarchive revision behaves as the claim states: a
set cancellation flag yields a normal `(stdout, stderr)` return for any
exit status, and without the flag a non-zero exit raises
`CalledProcessError` carrying exit code, command and streams while a
zero exit returns normally.  The pytarchive revision inverts this: with
the flag set (child exit 0) it raises `CalledProcessError`, and without
the flag a non-zero exit (here 2) is returned as a success — the failing
inputs for the claim. -/
theorem run_command_abort_logic_inverted :
    (∀ code : Int, PyA.run_command (some true) code "du" "out" "err" =
        .ok ("out", "err")) ∧
    PyA.run_command (some false) 2 "du" "out" "err" =
      .error ⟨2, "du", "out", "err"⟩ ∧
    PyA.run_command none 0 "du" "out" "err" = .ok ("out", "err") ∧
    PyT.run_command (some true) 0 "du" "out" "err" =
      .error ⟨0, "du", "out", "err"⟩ ∧
    PyT.run_command (some false) 2 "du" "out" "err" = .ok ("out", "err") := by
  refine ⟨fun code => rfl, rfl, rfl, rfl, rfl⟩

/-- A JSON-encodable positional argument of a `WorkItem` (the source
stores `args` as a JSON list). -/
inductive JsonVal where
  | str : String → JsonVal
  | bool : Bool → JsonVal
  | int : Int → JsonVal
deriving DecidableEq, Repr

/-- Embeds the `WorkItem` dataclass (pytarchive/service/work_queue.py,
lines 16-35).  `created` carries the `_created` timestamp at the
granularity the queue file stores it (the `"%b %d %Y %H:%M:%S"` string;
`strftime` and `strptime` with that format are mutually inverse on such
strings).  `hashseed` stands for the random `_hashseed`; the `_abort_handle`
event is modeled by its current state `abortSet`. -/
structure WorkItem where
  priority : Int
  coroutine : String
  args : List JsonVal
  description : String
  error_msg : String
  progress : Option String
  abortSet : Bool
  created : String
  hashseed : Nat
  running : Bool
deriving DecidableEq, Repr

/-- `WorkItem(priority, coroutine, args, description)` followed by
`__post_init__`: abort event unset, fresh creation time and hash seed, no
progress, not running, empty `error_msg`. -/
def WorkItem.fresh (priority : Int) (coroutine : String) (args : List JsonVal)
    (description : String) (now : String) (seed : Nat) : WorkItem :=
  ⟨priority, coroutine, args, description, "", none, false, now, seed, false⟩

/-- One serialized record of `/var/lib/pytarchive/queue.json`, exactly
the six fields `WorkList._write_json` persists. -/
structure QueueRec where
  priority : Int
  coroutine : String
  args : List JsonVal
  description : String
  created : String
  error_msg : String
deriving DecidableEq, Repr

namespace PyT

/-- Embeds `WorkList._write_json` (pytarchive/service/work_queue.py,
lines 150-163): each queue item is serialized to its six persisted
fields, in queue order. -/
def write_json (items : List WorkItem) : List QueueRec :=
  items.map (fun i =>
    ⟨i.priority, i.coroutine, i.args, i.description, i.created, i.error_msg⟩)

/-- Embeds the rehydration loop of `WorkList.__init__`
(pytarchive/service/work_queue.py, lines 74-90): every record read from
disk becomes a fresh `WorkItem` (new abort event, `running = false`)
whose `error_msg` and `created` are then overwritten from the record.
`seeds k` is the random hash seed drawn for the `k`-th item and `now` the
construction time of the fresh items (both immediately overwritten or
irrelevant to persisted state). -/
def worklist_init (recs : List QueueRec) (seeds : Nat → Nat) (now : String) :
    List WorkItem :=
  recs.enum.map (fun p =>
    { WorkItem.fresh p.2.priority p.2.coroutine p.2.args p.2.description now
        (seeds p.1) with
      error_msg := p.2.error_msg, created := p.2.created })

end PyT

lemma write_json_worklist_init_enumFrom (recs : List QueueRec)
    (seeds : Nat → Nat) (now : String) (k : Nat) :
    PyT.write_json ((recs.enumFrom k).map (fun p =>
      { WorkItem.fresh p.2.priority p.2.coroutine p.2.args p.2.description now
          (seeds p.1) with
        error_msg := p.2.error_msg, created := p.2.created })) = recs := by
  unfold PyT.write_json
  rw [List.map_map]
  have h : ((fun (i : WorkItem) =>
      (⟨i.priority, i.coroutine, i.args, i.description, i.created,
        i.error_msg⟩ : QueueRec)) ∘
      (fun (p : Nat × QueueRec) =>
        { WorkItem.fresh p.2.priority p.2.coroutine p.2.args p.2.description now
            (seeds p.1) with
          error_msg := p.2.error_msg, created := p.2.created })) =
      Prod.snd := rfl
  rw [h, List.enumFrom_map_snd]

/-- C7: persisting the queue and rehydrating it is a round trip on the
persisted fields: serializing the rehydrated queue gives back the same
records (same priority, coroutine name, args, description, created
timestamp and error_msg, in the same order — in particular items with
non-empty `error_msg` stay quarantined), and every rehydrated item has a
fresh unset abort signal, `running = false` and no progress. -/
theorem queue_persistence_round_trip (q : List WorkItem)
    (seeds : Nat → Nat) (now : String) :
    PyT.write_json (PyT.worklist_init (PyT.write_json q) seeds now) =
      PyT.write_json q ∧
    ∀ i, i ∈ PyT.worklist_init (PyT.write_json q) seeds now →
      i.running = false ∧ i.abortSet = false ∧ i.progress = none := by
  constructor
  · unfold PyT.worklist_init
    rw [show (PyT.write_json q).enum = (PyT.write_json q).enumFrom 0 from rfl]
    exact write_json_worklist_init_enumFrom (PyT.write_json q) seeds now 0
  · intro i hi
    unfold PyT.worklist_init at hi
    rcases List.mem_map.mp hi with ⟨p, hp, hEq⟩
    subst hEq
    exact ⟨rfl, rfl, rfl⟩

/-- Witness for C7 at a concrete two-item queue (one failed item). -/
theorem queue_persistence_round_trip_witness :
    PyT.write_json
        (PyT.worklist_init
          (PyT.write_json
            [WorkItem.fresh 100 "archive" [JsonVal.str "/nas/p"] "a"
                "Jan 02 2024 03:04:05" 7,
             { WorkItem.fresh 20 "prepare" [JsonVal.str "/nas/q"] "b"
                "Jan 02 2024 03:04:06" 8 with error_msg := "boom" }])
          (fun k => k) "Feb 01 2024 00:00:00") =
      PyT.write_json
        [WorkItem.fresh 100 "archive" [JsonVal.str "/nas/p"] "a"
            "Jan 02 2024 03:04:05" 7,
         { WorkItem.fresh 20 "prepare" [JsonVal.str "/nas/q"] "b"
            "Jan 02 2024 03:04:06" 8 with error_msg := "boom" }] :=
  (queue_persistence_round_trip
    [WorkItem.fresh 100 "archive" [JsonVal.str "/nas/p"] "a"
        "Jan 02 2024 03:04:05" 7,
     { WorkItem.fresh 20 "prepare" [JsonVal.str "/nas/q"] "b"
        "Jan 02 2024 03:04:06" 8 with error_msg := "boom" }]
    (fun k => k) "Feb 01 2024 00:00:00").1

/-- The comparison `sorted(..., key=lambda i: i.priority)` sorts by:
Python's `sorted` is a stable sort by the key, embedded as
`List.mergeSort` (also stable) with this relation. -/
def priorityLE (a b : WorkItem) : Bool := decide (a.priority ≤ b.priority)

namespace PyT

/-- Embeds `WorkList.get_top` (pytarchive/service/work_queue.py, lines
112-117): stable-sort the healthy items (`error_msg == ""`) by priority
and return the first, or `None` when there is none. -/
def get_top (items : List WorkItem) : Option WorkItem :=
  (List.mergeSort (List.filter (fun i => i.error_msg = "") items)
    priorityLE).head?

end PyT

/-- The first element of minimal priority of a list (ties resolved to
the earlier element); specification-side selector for `get_top`. -/
def firstMinByPriority : List WorkItem → Option WorkItem
  | [] => none
  | x :: xs =>
    match firstMinByPriority xs with
    | none => some x
    | some y => if x.priority ≤ y.priority then some x else some y

lemma priorityLE_trans (a b c : WorkItem) :
    priorityLE a b → priorityLE b c → priorityLE a c := by
  unfold priorityLE
  intro h h2
  exact decide_eq_true (le_trans (of_decide_eq_true h) (of_decide_eq_true h2))

lemma priorityLE_total (a b : WorkItem) : priorityLE a b || priorityLE b a := by
  unfold priorityLE
  rcases le_total a.priority b.priority with h | h <;> simp [h]

lemma head?_mergeSort_priorityLE (l : List WorkItem) :
    (List.mergeSort l priorityLE).head? = firstMinByPriority l := by
  induction l with
  | nil => simp [List.mergeSort_nil, firstMinByPriority]
  | cons a t ih =>
    obtain ⟨l1, l2, h1, h2, h3⟩ :=
      List.mergeSort_cons priorityLE_trans priorityLE_total a t
    rcases l1 with _ | ⟨b, l1x⟩
    · simp only [List.nil_append] at h1 h2
      rw [h1]
      rw [h2] at ih
      rcases l2 with _ | ⟨y, l2x⟩
      · have ht : t = [] := by
          have := List.mergeSort_perm t priorityLE
          rw [h2] at this
          exact (List.Perm.nil_eq this).symm
        rw [ht]
        rfl
      · have hy : firstMinByPriority t = some y := by rw [← ih]; rfl
        have hs := List.sorted_mergeSort priorityLE_trans priorityLE_total (a :: t)
        rw [h1] at hs
        have hay : priorityLE a y = true := (List.pairwise_cons.mp hs).1 y (by simp)
        simp only [firstMinByPriority, hy, List.head?_cons]
        rw [if_pos (of_decide_eq_true hay)]
    · rw [h1]
      rw [h2] at ih
      have hb : firstMinByPriority t = some b := by rw [← ih]; rfl
      have hab : ¬ (a.priority ≤ b.priority) := by
        have := h3 b (by simp)
        simpa [priorityLE] using this
      simp only [firstMinByPriority, hb, List.cons_append, List.head?_cons]
      rw [if_neg hab]

lemma firstMinByPriority_eq_none_iff (l : List WorkItem) :
    firstMinByPriority l = none ↔ l = [] := by
  cases l with
  | nil => simp [firstMinByPriority]
  | cons a t =>
    simp only [firstMinByPriority]
    constructor
    · intro h
      exfalso
      rcases hm : firstMinByPriority t with _ | y <;> simp [hm] at h
      split at h <;> cases h
    · intro h
      cases h

lemma firstMinByPriority_mem_min (l : List WorkItem) (i : WorkItem)
    (h : firstMinByPriority l = some i) :
    i ∈ l ∧ ∀ j ∈ l, i.priority ≤ j.priority := by
  induction l generalizing i with
  | nil => cases h
  | cons a t ih =>
    rcases hm : firstMinByPriority t with _ | y
    · simp only [firstMinByPriority, hm] at h
      cases h
      have ht : t = [] := (firstMinByPriority_eq_none_iff t).mp hm
      subst ht
      exact ⟨by simp, by simp⟩
    · simp only [firstMinByPriority, hm] at h
      obtain ⟨hyMem, hyMin⟩ := ih y hm
      by_cases hc : a.priority ≤ y.priority
      · rw [if_pos hc] at h
        cases h
        refine ⟨by simp, ?_⟩
        intro j hj
        rcases List.mem_cons.mp hj with rfl | hj
        · exact le_refl _
        · exact le_trans hc (hyMin j hj)
      · rw [if_neg hc] at h
        cases h
        refine ⟨List.mem_cons_of_mem a hyMem, ?_⟩
        intro j hj
        rcases List.mem_cons.mp hj with rfl | hj
        · exact le_of_lt (lt_of_not_le hc)
        · exact hyMin j hj

lemma firstMinByPriority_earliest (l : List WorkItem) (i : WorkItem)
    (h : firstMinByPriority l = some i) :
    ∃ l1 l2, l = l1 ++ i :: l2 ∧ ∀ j ∈ l1, i.priority < j.priority := by
  induction l generalizing i with
  | nil => cases h
  | cons a t ih =>
    rcases hm : firstMinByPriority t with _ | y
    · simp only [firstMinByPriority, hm] at h
      cases h
      exact ⟨[], t, rfl, by simp⟩
    · simp only [firstMinByPriority, hm] at h
      by_cases hc : a.priority ≤ y.priority
      · rw [if_pos hc] at h
        cases h
        exact ⟨[], t, rfl, by simp⟩
      · rw [if_neg hc] at h
        cases h
        obtain ⟨l1, l2, hSplit, hGt⟩ := ih i hm
        refine ⟨a :: l1, l2, by rw [hSplit]; rfl, ?_⟩
        intro j hj
        rcases List.mem_cons.mp hj with rfl | hj
        · exact lt_of_not_le hc
        · exact hGt j hj

/-- C5: `get_top` returns `None` exactly when the queue holds no healthy
item (`error_msg == ""`); otherwise it returns a healthy item of the
queue whose priority is minimal among healthy items, and which is the
earliest, in list (creation) order, among the healthy items of that
minimal priority; failed items are never returned. -/
theorem get_top_minimal_healthy (q : List WorkItem) :
    (PyT.get_top q = none ↔ ∀ i ∈ q, i.error_msg ≠ "") ∧
    ∀ i, PyT.get_top q = some i →
      i.error_msg = "" ∧ i ∈ q ∧
      (∀ j ∈ q, j.error_msg = "" → i.priority ≤ j.priority) ∧
      ∃ l1 l2, List.filter (fun j => j.error_msg = "") q = l1 ++ i :: l2 ∧
        ∀ j ∈ l1, i.priority < j.priority := by
  unfold PyT.get_top
  rw [head?_mergeSort_priorityLE]
  constructor
  · rw [firstMinByPriority_eq_none_iff, List.filter_eq_nil_iff]
    constructor
    · intro h i hi
      simpa using h i hi
    · intro h i hi
      simpa using h i hi
  · intro i hTop
    obtain ⟨hMem, hMin⟩ := firstMinByPriority_mem_min _ i hTop
    obtain ⟨hMemQ, hHealthy⟩ := List.mem_filter.mp hMem
    refine ⟨by simpa using hHealthy, hMemQ, ?_, ?_⟩
    · intro j hj hjHealthy
      exact hMin j (List.mem_filter.mpr ⟨hj, by simpa using hjHealthy⟩)
    · exact firstMinByPriority_earliest _ i hTop

/-- Concrete queue for the C5 witness: priorities [100, 20, 100] plus a
failed item of priority 1 (spec scenario 6 variant). -/
def scenarioQueue : List WorkItem :=
  [WorkItem.fresh 100 "archive" [JsonVal.str "/a"] "a" "Jan 01 2024 00:00:00" 1,
   WorkItem.fresh 20 "prepare" [JsonVal.str "/b"] "b" "Jan 01 2024 00:00:01" 2,
   WorkItem.fresh 100 "restore" [JsonVal.str "/c"] "c" "Jan 01 2024 00:00:02" 3,
   { WorkItem.fresh 1 "explore" [JsonVal.str "/d"] "d" "Jan 01 2024 00:00:03" 4
     with error_msg := "boom" }]

unseal List.merge List.mergeSort in
lemma get_top_scenarioQueue :
    PyT.get_top scenarioQueue =
      some (WorkItem.fresh 20 "prepare" [JsonVal.str "/b"] "b"
        "Jan 01 2024 00:00:01" 2) := rfl

/-- Witness for C5: on `scenarioQueue` the priority-20 item is returned
and it is minimal among the healthy items. -/
theorem get_top_minimal_healthy_witness :
    (WorkItem.fresh 20 "prepare" [JsonVal.str "/b"] "b"
        "Jan 01 2024 00:00:01" 2).error_msg = "" ∧
    (WorkItem.fresh 20 "prepare" [JsonVal.str "/b"] "b"
        "Jan 01 2024 00:00:01" 2) ∈ scenarioQueue := by
  have h := (get_top_minimal_healthy scenarioQueue).2
    (WorkItem.fresh 20 "prepare" [JsonVal.str "/b"] "b"
      "Jan 01 2024 00:00:01" 2) get_top_scenarioQueue
  exact ⟨h.1, h.2.1⟩

/-- Renders `n` as eight zero-padded hexadecimal digits: the model of
`WorkItem.format_hash` output `f"{h:#010x}"[2:10]` for `h < 2**32`. -/
def toHex8 (n : Nat) : String :=
  String.mk (List.reverse ((List.range 8).map
    (fun k => Nat.digitChar (n / 16 ^ k % 16))))

/-- Embeds `WorkItem.format_hash` (pytarchive/service/work_queue.py,
lines 59-61): the item's stable short ID, eight hex digits derived from
the item's hash.  The Python hash of the random float `_hashseed` is
modeled by the `hashseed` value itself (all that matters is that the ID
is a stable function of the seed). -/
def format_hash (i : WorkItem) : String :=
  toHex8 (i.hashseed % 4294967296)

/-- Replace the first occurrence of `old` in the list by `new`: the
effect of mutating, in place, the object found by a linear scan. -/
def replaceFirst {α : Type} [DecidableEq α] : List α → α → α → List α
  | [], _, _ => []
  | x :: xs, old, new =>
    if x = old then new :: xs else x :: replaceFirst xs old new

namespace PyT

/-- Embeds the inner `process_task` of `handle_requeue`
(pytarchive/service/handlers.py, lines 54-65): scan the queue for the
first item whose short ID matches; a failed match has its `error_msg`
cleared in place; a healthy match only produces the "already queued"
message; no match produces "not found".  Returns the queue after the
call together with the reply line. -/
def requeue_process_task (queue : List WorkItem) (id : String) :
    List WorkItem × String :=
  match List.find? (fun t => format_hash t = id) queue with
  | none => (queue, "Task " ++ id ++ " not found")
  | some t =>
    if t.error_msg ≠ "" then
      (replaceFirst queue t { t with error_msg := "" },
       "Task " ++ id ++ ": Error state reset. Task was added back into the queue")
    else
      (queue, "Task " ++ id ++ " was already queued")

/-- Embeds `handle_requeue` (pytarchive/service/handlers.py, lines
54-67): `process_task` is run for each requested ID in order, threading
the (mutable) queue through; the replies are joined for the client. -/
def handle_requeue (queue : List WorkItem) (ids : List String) :
    List WorkItem × List String :=
  ids.foldl
    (fun acc id =>
      let r := requeue_process_task acc.1 id
      (r.1, acc.2 ++ [r.2])) (queue, [])

end PyT

lemma handle_requeue_foldl_frame (queue : List WorkItem) (ids : List String)
    (h : ∀ id ∈ ids, ∀ t,
      List.find? (fun t => format_hash t = id) queue = some t →
        t.error_msg = "") (msgs : List String) :
    (ids.foldl
      (fun acc id =>
        let r := PyT.requeue_process_task acc.1 id
        (r.1, acc.2 ++ [r.2])) (queue, msgs)).1 = queue := by
  induction ids generalizing msgs with
  | nil => rfl
  | cons id rest ih =>
    have hstep : PyT.requeue_process_task queue id =
        (queue, (PyT.requeue_process_task queue id).2) := by
      unfold PyT.requeue_process_task
      rcases hf : List.find? (fun t => format_hash t = id) queue with _ | t
      · rfl
      · have := h id (by simp) t hf
        simp [this]
    simp only [List.foldl]
    rw [show (let r := PyT.requeue_process_task queue id;
        ((r.1, msgs ++ [r.2]) : List WorkItem × List String)) =
        (queue, msgs ++ [(PyT.requeue_process_task queue id).2]) by
      rw [hstep]]
    exact ih (fun i hi => h i (by simp [hi])) _

/-- C10: a requeue naming a task whose first matching work item is
healthy (`error_msg == ""`) leaves the queue completely unchanged — the
handler only reports that the task was already queued — and this extends
to a whole command all of whose IDs match healthy items or nothing;
`error_msg` is cleared (and the queue modified, only at that item) only
when the matched item's `error_msg` is non-empty. -/
theorem requeue_healthy_leaves_queue_unchanged (queue : List WorkItem)
    (id : String) :
    (∀ t, List.find? (fun t => format_hash t = id) queue = some t →
      t.error_msg = "" →
      PyT.requeue_process_task queue id =
        (queue, "Task " ++ id ++ " was already queued")) ∧
    (List.find? (fun t => format_hash t = id) queue = none →
      PyT.requeue_process_task queue id =
        (queue, "Task " ++ id ++ " not found")) ∧
    (∀ t, List.find? (fun t => format_hash t = id) queue = some t →
      t.error_msg ≠ "" →
      PyT.requeue_process_task queue id =
        (replaceFirst queue t { t with error_msg := "" },
         "Task " ++ id ++ ": Error state reset. Task was added back into the queue")) ∧
    ∀ ids : List String,
      (∀ i ∈ ids, ∀ t,
        List.find? (fun t => format_hash t = i) queue = some t →
          t.error_msg = "") →
      (PyT.handle_requeue queue ids).1 = queue := by
  refine ⟨?_, ?_, ?_, ?_⟩
  · intro t hf he
    unfold PyT.requeue_process_task
    rw [hf]
    simp [he]
  · intro hf
    unfold PyT.requeue_process_task
    rw [hf]
  · intro t hf he
    unfold PyT.requeue_process_task
    rw [hf]
    simp [he]
  · intro ids h
    exact handle_requeue_foldl_frame queue ids h []

/-- Witness for C10: on `scenarioQueue`, requeueing the ID of the healthy
priority-100 item (seed 1) leaves the queue unchanged. -/
theorem requeue_healthy_leaves_queue_unchanged_witness :
    PyT.requeue_process_task scenarioQueue
        (format_hash (WorkItem.fresh 100 "archive" [JsonVal.str "/a"] "a"
          "Jan 01 2024 00:00:00" 1)) =
      (scenarioQueue,
       "Task " ++ format_hash (WorkItem.fresh 100 "archive" [JsonVal.str "/a"]
          "a" "Jan 01 2024 00:00:00" 1) ++ " was already queued") :=
  (requeue_healthy_leaves_queue_unchanged scenarioQueue
      (format_hash (WorkItem.fresh 100 "archive" [JsonVal.str "/a"] "a"
        "Jan 01 2024 00:00:00" 1))).1
    (WorkItem.fresh 100 "archive" [JsonVal.str "/a"] "a"
      "Jan 01 2024 00:00:00" 1)
    (by decide) rfl

/-- The sentinel returned by `place_directory` when no tape fits. -/
def doesNotFitSentinel : String := "doesn\x27t fit"

/-- Python dict update `if tape not in sums: sums[tape] = 0;
sums[tape] += s` on an insertion-ordered association list: increment the
first entry with the key, or append the key at the end. -/
def bumpKey : List (String × Int) → String → Int → List (String × Int)
  | [], t, s => [(t, s)]
  | (k, v) :: rest, t, s =>
    if k = t then (k, v + s) :: rest else (k, v) :: bumpKey rest t s

/-- The dict comprehension `{i: 0 for i in all_tapes}`: every tape is a
key with value 0; a duplicate tape keeps its first position. -/
def initSums (all_tapes : List String) : List (String × Int) :=
  all_tapes.foldl
    (fun acc t => if acc.any (fun p => p.1 = t) then acc else acc ++ [(t, 0)]) []

/-- One iteration of the `for folder in self.data` loop of
`place_directory`: a folder with a tape adds its size to that tape's
running sum; `folder.get("size")` being absent (`None`) raises a
`TypeError` in Python, the `.error` case. -/
def addFolderSize (sums : List (String × Int)) (r : ArchiveRecord) :
    Except String (List (String × Int)) :=
  match r.tape with
  | none => .ok sums
  | some t =>
    match r.size with
    | none => .error "TypeError: unsupported operand for +: NoneType and int"
    | some s => .ok (bumpKey sums t s)

/-- The list comprehension `[i for i in ordered if (i[1] + entry["size"])
< maxsize]`: the condition reads `entry["size"]` for each element, so a
missing size key raises `KeyError` at the first element. -/
def fitsFilter (entry_size : Option Int) (maxsize : Int) :
    List (String × Int) → Except String (List (String × Int))
  | [] => .ok []
  | p :: rest =>
    match entry_size with
    | none => .error "KeyError: size"
    | some s =>
      (fitsFilter entry_size maxsize rest).map
        (fun tail => if p.2 + s < maxsize then p :: tail else tail)

/-- The comparison of `sorted(sums.items(), key=lambda e: e[1],
reverse=True)`: a stable descending sort by the summed size, embedded as
`mergeSort` with the reversed comparison (both are stable, and a stable
descending sort is unique). -/
def descBySum (a b : String × Int) : Bool := decide (b.2 ≤ a.2)

namespace PyA

/-- Embeds `JsonDatabase.place_directory` (pyarchive/service/db.py, lines
108-126).  `data` is `self.data`, `maxsize` the configured
`tape_max_size`.  The per-tape sums are seeded with 0 for every known
tape, every folder with a `tape` key adds its `size`, the sums are
stable-sorted by used size descending, strictly-fitting candidates are
kept, and the first (fullest) is returned — or the sentinel when none
fits. -/
def place_directory (data : List ArchiveRecord) (entry : ArchiveRecord)
    (all_tapes : List String) (maxsize : Int) : Except String String :=
  if entry.state ≠ "prepared" then
    .error ("Directory must be prepared, is " ++ entry.state)
  else
    (data.foldlM addFolderSize (initSums all_tapes)).bind (fun sums =>
      (fitsFilter entry.size maxsize (List.mergeSort sums descBySum)).bind
        (fun fits =>
          match fits with
          | [] => .ok doesNotFitSentinel
          | p :: _ => .ok p.1))

end PyA

/-- The claim's used-kilobytes function: the sum of `size` over all
records whose `tape` equals `t` (an absent size counts 0; the claim's
hypotheses rule that case out). -/
def usedKilobytes (data : List ArchiveRecord) (t : String) : Int :=
  (data.map (fun r => if r.tape = some t then r.size.getD 0 else 0)).sum

/-- The candidate tapes of `place_directory`: the known tapes plus every
tape already referenced by a record. -/
def isCandidate (data : List ArchiveRecord) (all_tapes : List String)
    (t : String) : Prop :=
  t ∈ all_tapes ∨ ∃ r, r ∈ data ∧ r.tape = some t

/-- Association-list lookup by key (Python `sums[k]` on the dict). -/
def lookupSum (l : List (String × Int)) (t : String) : Option Int :=
  (List.find? (fun p => p.1 = t) l).map (fun p => p.2)

/-- The keys of the association list, in insertion order. -/
def keysOf (l : List (String × Int)) : List String := l.map (fun p => p.1)

lemma usedKilobytes_cons (r : ArchiveRecord) (data : List ArchiveRecord)
    (t : String) :
    usedKilobytes (r :: data) t =
      (if r.tape = some t then r.size.getD 0 else 0) + usedKilobytes data t := by
  simp [usedKilobytes]



lemma lookupSum_nil (k : String) : lookupSum [] k = none := rfl

lemma lookupSum_cons (pk : String) (pv : Int) (rest : List (String × Int)) (k : String) :
    lookupSum ((pk, pv) :: rest) k = if pk = k then some pv else lookupSum rest k := by
  by_cases h : pk = k
  · simp [lookupSum, List.find?_cons_of_pos, h]
  · simp only [lookupSum, if_neg h]
    rw [List.find?_cons_of_neg]
    simp [h]

lemma bumpKey_eq_of_head (pk : String) (pv : Int) (rest : List (String × Int)) (s : Int) :
    bumpKey ((pk, pv) :: rest) pk s = (pk, pv + s) :: rest := by
  simp [bumpKey]

lemma bumpKey_eq_of_ne (pk t : String) (pv : Int) (rest : List (String × Int)) (s : Int)
    (h : pk ≠ t) : bumpKey ((pk, pv) :: rest) t s = (pk, pv) :: bumpKey rest t s := by
  simp [bumpKey, h]

lemma lookupSum_bumpKey (l : List (String × Int)) (t : String) (s : Int) (k : String) :
    lookupSum (bumpKey l t s) k =
      if k = t then some ((lookupSum l t).getD 0 + s) else lookupSum l k := by
  induction l with
  | nil =>
    by_cases hk : k = t
    · subst hk
      simp [bumpKey, lookupSum_cons, lookupSum_nil]
    · simp only [bumpKey, lookupSum_cons, lookupSum_nil, if_neg hk]
      rw [if_neg (fun h => hk h.symm)]
  | cons p rest ih =>
    rcases p with ⟨pk, pv⟩
    by_cases hpt : pk = t
    · subst hpt
      by_cases hk : k = pk
      · subst hk
        simp [bumpKey_eq_of_head, lookupSum_cons]
      · simp [bumpKey_eq_of_head, lookupSum_cons, hk, Ne.symm hk]
    · by_cases hk : k = pk
      · subst hk
        simp [bumpKey_eq_of_ne k t pv rest s hpt, lookupSum_cons, hpt]
      · simp [bumpKey_eq_of_ne pk t pv rest s hpt, lookupSum_cons, Ne.symm hk, hpt, ih]

lemma keysOf_bumpKey (l : List (String × Int)) (t : String) (s : Int) :
    keysOf (bumpKey l t s) = if t ∈ keysOf l then keysOf l else keysOf l ++ [t] := by
  induction l with
  | nil => simp [bumpKey, keysOf]
  | cons p rest ih =>
    rcases p with ⟨pk, pv⟩
    by_cases hpt : pk = t
    · subst hpt
      simp [bumpKey_eq_of_head, keysOf]
    · rw [bumpKey_eq_of_ne pk t pv rest s hpt]
      simp only [keysOf, List.map_cons] at *
      rw [ih]
      by_cases hmem : t ∈ List.map (fun p => p.1) rest
      · simp [hmem, hpt]
      · have htp : t ≠ pk := fun h => hpt h.symm
        simp [hmem, htp]

lemma nodup_keysOf_bumpKey (l : List (String × Int)) (t : String) (s : Int)
    (h : (keysOf l).Nodup) : (keysOf (bumpKey l t s)).Nodup := by
  rw [keysOf_bumpKey]
  by_cases hmem : t ∈ keysOf l
  · simp [hmem, h]
  · simp [hmem, List.nodup_append, h]

lemma isSome_lookupSum (l : List (String × Int)) (k : String) :
    (lookupSum l k).isSome = true ↔ k ∈ keysOf l := by
  induction l with
  | nil => simp [lookupSum_nil, keysOf]
  | cons p rest ih =>
    rcases p with ⟨pk, pv⟩
    rw [lookupSum_cons]
    by_cases h : pk = k
    · simp [h, keysOf]
    · have hk2 : k ≠ pk := fun hh => h hh.symm
      rw [if_neg h, ih]
      simp [keysOf, hk2]

lemma mem_of_lookupSum_eq_some (l : List (String × Int)) (k : String) (v : Int)
    (h : lookupSum l k = some v) : (k, v) ∈ l := by
  unfold lookupSum at h
  rcases Option.map_eq_some'.mp h with ⟨p, hfind, hv⟩
  have hk := List.find?_some hfind
  have hm := List.mem_of_find?_eq_some hfind
  rcases p with ⟨a, b⟩
  simp at hk hv
  subst hk
  subst hv
  exact hm

lemma lookupSum_eq_some_of_mem (l : List (String × Int)) (k : String) (v : Int)
    (hnd : (keysOf l).Nodup) (h : (k, v) ∈ l) : lookupSum l k = some v := by
  induction l with
  | nil => cases h
  | cons p rest ih =>
    rcases p with ⟨pk, pv⟩
    simp only [keysOf, List.map_cons, List.nodup_cons] at hnd
    rcases List.mem_cons.mp h with heq | hmem
    · cases heq
      rw [lookupSum_cons, if_pos rfl]
    · have hk : pk ≠ k := by
        intro hkk
        subst hkk
        exact hnd.1 (List.mem_map.mpr ⟨(pk, v), hmem, rfl⟩)
      rw [lookupSum_cons, if_neg hk]
      exact ih hnd.2 hmem

lemma initSums_foldl_lookup (ts : List String) (acc : List (String × Int))
    (k : String) (hv : ∀ v, lookupSum acc k = some v → v = 0) :
    lookupSum (ts.foldl
      (fun acc t => if acc.any (fun p => p.1 = t) then acc else acc ++ [(t, 0)])
      acc) k =
      if (lookupSum acc k).isSome ∨ k ∈ ts then some 0 else none := by
  induction ts generalizing acc with
  | nil =>
    rcases h : lookupSum acc k with _ | v
    · simp [h]
    · have := hv v h
      subst this
      simp [h]
  | cons t rest ih =>
    simp only [List.foldl_cons]
    by_cases hin : acc.any (fun p => p.1 = t)
    · rw [if_pos hin, ih acc hv]
      by_cases hk : k = t
      · subst hk
        have hsome : (lookupSum acc k).isSome = true := by
          rcases List.any_eq_true.mp hin with ⟨p, hp, hpk⟩
          rw [isSome_lookupSum]
          simp at hpk
          rw [← hpk]
          exact List.mem_map.mpr ⟨p, hp, rfl⟩
        simp [hsome]
      · simp [hk]
    · rw [if_neg hin]
      have hv2 : ∀ v, lookupSum (acc ++ [(t, 0)]) k = some v → v = 0 := by
        intro v hl
        unfold lookupSum at hl
        rw [List.find?_append] at hl
        rcases hfa : List.find? (fun p => p.1 = k) acc with _ | p
        · rw [hfa] at hl
          simp only [Option.none_or] at hl
          by_cases htk : t = k
          · simp [List.find?, htk] at hl
            omega
          · simp [List.find?, htk] at hl
        · rw [hfa] at hl
          simp only [Option.or_some] at hl
          apply hv
          unfold lookupSum
          rw [hfa]
          exact hl
      rw [ih (acc ++ [(t, 0)]) hv2]
      by_cases hk : k = t
      · subst hk
        have hsome : (lookupSum (acc ++ [(k, 0)]) k).isSome = true := by
          rw [isSome_lookupSum]
          simp [keysOf]
        simp [hsome]
      · have heq : lookupSum (acc ++ [(t, 0)]) k = lookupSum acc k := by
          have hkt : ¬ t = k := fun h => hk h.symm
          unfold lookupSum
          simp [List.find?_append, List.find?, hkt, Option.or_none]
        rw [heq]
        simp [hk]

lemma lookupSum_initSums (ts : List String) (k : String) :
    lookupSum (initSums ts) k = if k ∈ ts then some 0 else none := by
  unfold initSums
  rw [initSums_foldl_lookup ts [] k
    (fun v h => by simp [lookupSum_nil] at h)]
  simp [lookupSum_nil]

lemma nodup_keysOf_initSums_aux (ts : List String) :
    ∀ acc : List (String × Int), (keysOf acc).Nodup →
    (keysOf (ts.foldl
      (fun acc t => if acc.any (fun p => p.1 = t) then acc else acc ++ [(t, 0)])
      acc)).Nodup := by
  induction ts with
  | nil => exact fun acc h => h
  | cons t rest ih =>
    intro acc h
    simp only [List.foldl_cons]
    by_cases hin : acc.any (fun p => p.1 = t)
    · rw [if_pos hin]
      exact ih acc h
    · rw [if_neg hin]
      apply ih
      have hnotmem : t ∉ keysOf acc := by
        intro hmem
        rcases List.mem_map.mp hmem with ⟨p, hp, hpk⟩
        exact hin (List.any_eq_true.mpr ⟨p, hp, by simp [hpk]⟩)
      simp [keysOf, List.nodup_append]
      constructor
      · simpa [keysOf] using h
      · simpa [keysOf] using hnotmem

lemma nodup_keysOf_initSums (ts : List String) :
    (keysOf (initSums ts)).Nodup :=
  nodup_keysOf_initSums_aux ts [] (by simp [keysOf])

lemma foldlM_addFolderSize (data : List ArchiveRecord) :
    ∀ init : List (String × Int),
      (∀ r, r ∈ data → r.tape ≠ none → r.size ≠ none) →
      ∃ L, List.foldlM addFolderSize init data = .ok L ∧
        (∀ k v, lookupSum L k = some v →
          v = (lookupSum init k).getD 0 + usedKilobytes data k) ∧
        (∀ k, (lookupSum L k).isSome = true ↔
          ((lookupSum init k).isSome = true ∨ ∃ r, r ∈ data ∧ r.tape = some k)) ∧
        ((keysOf init).Nodup → (keysOf L).Nodup) := by
  induction data with
  | nil =>
    intro init hwf
    refine ⟨init, rfl, ?_, ?_, fun h => h⟩
    · intro k v h
      rw [h]
      simp [usedKilobytes]
    · intro k
      simp
  | cons r rest ih =>
    intro init hwf
    rcases hr : r.tape with _ | t
    · have hstep : addFolderSize init r = .ok init := by
        simp [addFolderSize, hr]
      obtain ⟨L, hfold, h1, h2, h3⟩ :=
        ih init (fun x hx hx2 => hwf x (List.mem_cons_of_mem r hx) hx2)
      refine ⟨L, ?_, ?_, ?_, h3⟩
      · rw [List.foldlM_cons, hstep]
        exact hfold
      · intro k v h
        rw [h1 k v h, usedKilobytes_cons, hr]
        simp
      · intro k
        rw [h2 k]
        constructor
        · rintro (h | ⟨x, hx, hxt⟩)
          · exact Or.inl h
          · exact Or.inr ⟨x, List.mem_cons_of_mem r hx, hxt⟩
        · rintro (h | ⟨x, hx, hxt⟩)
          · exact Or.inl h
          · rcases List.mem_cons.mp hx with rfl | hx2
            · rw [hr] at hxt
              cases hxt
            · exact Or.inr ⟨x, hx2, hxt⟩
    · rcases hs : r.size with _ | s
      · exfalso
        exact hwf r (by simp) (by simp [hr]) (by simp [hs])
      · have hstep : addFolderSize init r = .ok (bumpKey init t s) := by
          simp [addFolderSize, hr, hs]
        obtain ⟨L, hfold, h1, h2, h3⟩ :=
          ih (bumpKey init t s)
            (fun x hx hx2 => hwf x (List.mem_cons_of_mem r hx) hx2)
        refine ⟨L, ?_, ?_, ?_, ?_⟩
        · rw [List.foldlM_cons, hstep]
          exact hfold
        · intro k v h
          rw [h1 k v h, lookupSum_bumpKey, usedKilobytes_cons, hr, hs]
          by_cases hk : k = t
          · subst hk
            rw [if_pos rfl, if_pos rfl]
            simp
            omega
          · have hk2 : some t ≠ some k := by
              intro hcon
              exact hk (Option.some_inj.mp hcon).symm
            rw [if_neg hk, if_neg hk2]
            simp
        · intro k
          rw [h2 k, lookupSum_bumpKey]
          by_cases hk : k = t
          · subst hk
            simp
            exact Or.inr (Or.inl hr)
          · rw [if_neg hk]
            constructor
            · rintro (h | ⟨x, hx, hxt⟩)
              · exact Or.inl h
              · exact Or.inr ⟨x, List.mem_cons_of_mem r hx, hxt⟩
            · rintro (h | ⟨x, hx, hxt⟩)
              · exact Or.inl h
              · rcases List.mem_cons.mp hx with rfl | hx2
                · rw [hr] at hxt
                  exact absurd (Option.some_inj.mp hxt).symm hk
                · exact Or.inr ⟨x, hx2, hxt⟩
        · intro hnd
          exact h3 (nodup_keysOf_bumpKey init t s hnd)

lemma fitsFilter_ok (S : Int) (maxsize : Int) (l : List (String × Int)) :
    fitsFilter (some S) maxsize l =
      .ok (l.filter (fun p => decide (p.2 + S < maxsize))) := by
  induction l with
  | nil => rfl
  | cons p rest ih =>
    simp only [fitsFilter, ih, Except.map, List.filter_cons]
    by_cases h : p.2 + S < maxsize
    · simp [h]
    · simp [h]

lemma descBySum_trans (a b c : String × Int) :
    descBySum a b → descBySum b c → descBySum a c := by
  unfold descBySum
  intro h h2
  exact decide_eq_true (le_trans (of_decide_eq_true h2) (of_decide_eq_true h))

lemma descBySum_total (a b : String × Int) : descBySum a b || descBySum b a := by
  unfold descBySum
  rcases le_total a.2 b.2 with h | h <;> simp [h]

theorem place_directory_fullest_fit
    (data : List ArchiveRecord) (entry : ArchiveRecord)
    (all_tapes : List String) (maxsize S : Int)
    (hstate : entry.state = "prepared") (hsize : entry.size = some S)
    (hwf : ∀ r, r ∈ data → r.tape ≠ none → r.size ≠ none) :
    (∀ t, PyA.place_directory data entry all_tapes maxsize = .ok t →
      t ≠ doesNotFitSentinel →
      isCandidate data all_tapes t ∧
      usedKilobytes data t + S < maxsize ∧
      (∀ c, isCandidate data all_tapes c → usedKilobytes data c + S < maxsize →
        usedKilobytes data c ≤ usedKilobytes data t)) ∧
    ((∀ c, isCandidate data all_tapes c → ¬ (usedKilobytes data c + S < maxsize)) →
      PyA.place_directory data entry all_tapes maxsize = .ok doesNotFitSentinel) ∧
    (¬ isCandidate data all_tapes doesNotFitSentinel →
      PyA.place_directory data entry all_tapes maxsize = .ok doesNotFitSentinel →
      ∀ c, isCandidate data all_tapes c →
        ¬ (usedKilobytes data c + S < maxsize)) := by
  obtain ⟨L, hfold, h1, h2, h3⟩ := foldlM_addFolderSize data (initSums all_tapes) hwf
  have hnodup := h3 (nodup_keysOf_initSums all_tapes)
  have hval : ∀ p, p ∈ L → p.2 = usedKilobytes data p.1 := by
    intro p hp
    rcases p with ⟨k, v⟩
    have hv := h1 k v (lookupSum_eq_some_of_mem L k v hnodup hp)
    rw [lookupSum_initSums] at hv
    by_cases hmem : k ∈ all_tapes
    · simpa [hmem] using hv
    · simpa [hmem] using hv
  have hcand : ∀ p, p ∈ L → isCandidate data all_tapes p.1 := by
    intro p hp
    have hks : (lookupSum L p.1).isSome = true := by
      rw [isSome_lookupSum]
      exact List.mem_map.mpr ⟨p, hp, rfl⟩
    have hor := (h2 p.1).mp hks
    rw [lookupSum_initSums] at hor
    rcases hor with hsome | hex
    · by_cases hmem : p.1 ∈ all_tapes
      · exact Or.inl hmem
      · simp [hmem] at hsome
    · exact Or.inr hex
  have hcandMem : ∀ c, isCandidate data all_tapes c →
      (c, usedKilobytes data c) ∈ L := by
    intro c hc
    have hks : (lookupSum L c).isSome = true := by
      apply (h2 c).mpr
      rcases hc with h | h
      · left
        rw [lookupSum_initSums]
        simp [h]
      · right
        exact h
    rcases Option.isSome_iff_exists.mp hks with ⟨v, hv⟩
    have hvv := h1 c v hv
    rw [lookupSum_initSums] at hvv
    have hv0 : v = usedKilobytes data c := by
      by_cases hmem : c ∈ all_tapes
      · simpa [hmem] using hvv
      · simpa [hmem] using hvv
    rw [hv0] at hv
    exact mem_of_lookupSum_eq_some L c _ hv
  have hsorted := List.sorted_mergeSort descBySum_trans descBySum_total L
  have hfits : fitsFilter entry.size maxsize (List.mergeSort L descBySum) =
      .ok ((List.mergeSort L descBySum).filter
        (fun p => decide (p.2 + S < maxsize))) := by
    rw [hsize]
    exact fitsFilter_ok S maxsize _
  have hrun : PyA.place_directory data entry all_tapes maxsize =
      (match (List.mergeSort L descBySum).filter
          (fun p => decide (p.2 + S < maxsize)) with
        | [] => .ok doesNotFitSentinel
        | p :: _ => .ok p.1) := by
    unfold PyA.place_directory
    rw [if_neg (by simp [hstate]), hfold]
    show (fitsFilter entry.size maxsize (List.mergeSort L descBySum)).bind _ = _
    rw [hfits]
    rfl
  refine ⟨?_, ?_, ?_⟩
  · intro t hok hne
    rw [hrun] at hok
    rcases hFc : (List.mergeSort L descBySum).filter
        (fun p => decide (p.2 + S < maxsize)) with _ | ⟨p, rest⟩
    · rw [hFc] at hok
      simp at hok
      exact absurd hok.symm hne
    · rw [hFc] at hok
      simp at hok
      subst hok
      have hpF : p ∈ (List.mergeSort L descBySum).filter
          (fun p => decide (p.2 + S < maxsize)) := by
        rw [hFc]
        exact List.mem_cons_self p rest
      have hpo := List.mem_filter.mp hpF
      have hpL : p ∈ L := List.mem_mergeSort.mp hpo.1
      have hpred := of_decide_eq_true hpo.2
      have hpv := hval p hpL
      refine ⟨hcand p hpL, by rw [← hpv]; exact hpred, ?_⟩
      intro c hc hcfit
      have hcL := hcandMem c hc
      have hcF : (c, usedKilobytes data c) ∈
          (List.mergeSort L descBySum).filter
            (fun p => decide (p.2 + S < maxsize)) := by
        apply List.mem_filter.mpr
        exact ⟨List.mem_mergeSort.mpr hcL, decide_eq_true hcfit⟩
      rw [hFc] at hcF
      rcases List.mem_cons.mp hcF with heq | hmem
      · cases heq
        exact le_of_eq hpv.symm
      · have hsF := (List.Pairwise.filter (fun p => decide (p.2 + S < maxsize))
          hsorted)
        rw [hFc] at hsF
        have := (List.pairwise_cons.mp hsF).1 (c, usedKilobytes data c) hmem
        have hle := of_decide_eq_true this
        rw [← hpv]
        exact hle
  · intro hnofit
    rw [hrun]
    have hempty : (List.mergeSort L descBySum).filter
        (fun p => decide (p.2 + S < maxsize)) = [] := by
      rw [List.filter_eq_nil_iff]
      intro p hp
      have hpL : p ∈ L := List.mem_mergeSort.mp hp
      have hpv := hval p hpL
      intro hpred
      have := of_decide_eq_true hpred
      rw [hpv] at this
      exact hnofit p.1 (hcand p hpL) this
    rw [hempty]
  · intro hns hok c hc hcfit
    rw [hrun] at hok
    rcases hFc : (List.mergeSort L descBySum).filter
        (fun p => decide (p.2 + S < maxsize)) with _ | ⟨p, rest⟩
    · have hcF : (c, usedKilobytes data c) ∈
          (List.mergeSort L descBySum).filter
            (fun p => decide (p.2 + S < maxsize)) := by
        apply List.mem_filter.mpr
        exact ⟨List.mem_mergeSort.mpr (hcandMem c hc), decide_eq_true hcfit⟩
      rw [hFc] at hcF
      cases hcF
    · rw [hFc] at hok
      simp at hok
      have hpL : p ∈ L := by
        have : p ∈ (List.mergeSort L descBySum).filter
            (fun p => decide (p.2 + S < maxsize)) := by
          rw [hFc]
          exact List.mem_cons_self p rest
        exact List.mem_mergeSort.mp (List.mem_filter.mp this).1
      have := hcand p hpL
      rw [hok] at this
      exact absurd this hns

/-- The catalog of end-to-end scenario 1 (spec §8; mirrored by
`tests/test_json_database.py::test_print`): committed sizes 8.02e9 kB on
AAK123, 7e9 on AAK124, 1.01e6 on AAK125, AAK126 empty. -/
def placementData : List ArchiveRecord :=
  [⟨"/folder3", "d3", "archiving_queued", some 20000000,
      some "Jan 01 2024 00:00:00", none, some "AAK123", none, none⟩,
   ⟨"/folder4", "d4", "archiving_queued", some 5000000000,
      some "Jan 01 2024 00:00:01", none, some "AAK123", none, none⟩,
   ⟨"/folder5", "d5", "archiving", some 1010000,
      some "Jan 01 2024 00:00:02", none, some "AAK125", some "folder5", none⟩,
   ⟨"/folder6", "d6", "archived", some 2000000000,
      some "Jan 01 2024 00:00:03", none, some "AAK123", some "folder6",
      some "Jan 02 2024 00:00:00"⟩,
   ⟨"/folder7", "d7", "archived", some 1000000000,
      some "Jan 01 2024 00:00:04", none, some "AAK123", some "folder7",
      some "Jan 02 2024 00:00:01"⟩,
   ⟨"/folder8", "d8", "archived", some 7000000000,
      some "Jan 01 2024 00:00:05", none, some "AAK124", some "folder8",
      some "Jan 02 2024 00:00:02"⟩]

/-- The `prepared` record of size 9e9 kB placed in scenario 1. -/
def folder1rec : ArchiveRecord :=
  ⟨"/folder1", "d1", "prepared", some 9000000000,
    some "Jan 03 2024 00:00:00", none, none, none, none⟩

unseal List.merge List.mergeSort in
lemma place_directory_scenario_eval :
    PyA.place_directory placementData folder1rec
      ["AAK123", "AAK124", "AAK125", "AAK126"] 17000000000 = .ok "AAK124" := rfl

/-- Witness for C1 on scenario 1: AAK124 is returned; by the theorem it
is a candidate and strictly fits. -/
theorem place_directory_fullest_fit_witness :
    isCandidate placementData ["AAK123", "AAK124", "AAK125", "AAK126"]
      "AAK124" ∧
    usedKilobytes placementData "AAK124" + 9000000000 < 17000000000 := by
  have h := (place_directory_fullest_fit placementData folder1rec
    ["AAK123", "AAK124", "AAK125", "AAK126"] 17000000000 9000000000
    rfl rfl (by decide)).1 "AAK124" place_directory_scenario_eval (by decide)
  exact ⟨h.1, h.2.1⟩

/-- Modelled from the spec: `pytarchive/service/db.py` is imported by
handlers.py and tasks.py but absent from the repository.  Spec section 4.3,
`create_entry(dir, description)`: a new record holds only the two base
fields and starts in state `preparing` (the record shape also matches the
in-repo pyarchive `create_entry`). -/
def PyT.create_entry_record (dir desc : String) : ArchiveRecord :=
  ⟨dir, desc, "preparing", none, none, none, none, none, none⟩

/-- Modelled from the spec: pytarchive `set_prepared(rec, size,
compressed)` (called at tasks.py line 65) requires state `preparing` and
sets `size`, `size_queried` and `compressed` (spec sections 3 and 4.3). -/
def PyT.set_prepared (entry : ArchiveRecord) (size : Int) (compressed : Bool)
    (now : String) : Except String ArchiveRecord :=
  if entry.state = "preparing" then
    .ok { entry with state := "prepared", size := some size,
                     size_queried := some now, compressed := some compressed }
  else
    .error ("Invalid state transition from " ++ entry.state ++ " to prepared.")

/-- Modelled from the spec: pytarchive `set_archiving_queued(rec, tape)`
requires state `prepared` and sets `tape` (spec section 4.3; identical to
the in-repo pyarchive revision). -/
def PyT.set_archiving_queued (entry : ArchiveRecord) (tape : String) :
    Except String ArchiveRecord :=
  if entry.state = "prepared" then
    .ok { entry with state := "archiving_queued", tape := some tape }
  else
    .error ("Invalid state transition from " ++ entry.state ++ " to archiving_queued.")

/-- Modelled from the spec: pytarchive `set_archiving(rec,
path_on_tape)` requires state `archiving_queued` and sets `path_on_tape`
(spec section 4.3; identical to the in-repo pyarchive revision). -/
def PyT.set_archiving (entry : ArchiveRecord) (path_on_tape : String) :
    Except String ArchiveRecord :=
  if entry.state = "archiving_queued" then
    .ok { entry with state := "archiving", path_on_tape := some path_on_tape }
  else
    .error ("Invalid state transition from " ++ entry.state ++ " to archiving.")

/-- Modelled from the spec: pytarchive `set_archived(rec, size?)`
(called as `set_archived(entry, size)` at tasks.py line 250) requires
state `archiving`, stamps `archived` and updates `size` when given (spec
sections 3, 4.3 and 4.5 step 5). -/
def PyT.set_archived (entry : ArchiveRecord) (size : Option Int) (now : String) :
    Except String ArchiveRecord :=
  if entry.state = "archiving" then
    .ok { entry with state := "archived", archived := some now,
                     size := match size with | some s => some s | none => entry.size }
  else
    .error ("Invalid state transition from " ++ entry.state ++ " to archived.")

/-- Embeds `handle_archive` lines 155-156
(pytarchive/service/handlers.py): after all validations pass, the handler
writes `path_on_tape` (the target filename, plus ".tar.gz" when the
record is compressed) and `tape` directly onto the still-`prepared`
record, before the archive task runs. -/
def PyT.archive_commit (entry : ArchiveRecord) (target_filename tapelabel : String) :
    ArchiveRecord :=
  { entry with
    path_on_tape := some (target_filename ++
      (if entry.compressed = some true then ".tar.gz" else "")),
    tape := some tapelabel }

/-- A single catalog record reachable through the operations of the
pytarchive program: creation by the prepare handler, the four catalog
setters, the field commit of `handle_archive` (lines 155-156), and the
archive task writing the tape field after `set_archived` (tasks.py line
251).  The guards of `step_archive_commit` reflect that the handler only
reaches those lines for a record found `prepared` (line 102) whose
`compressed` key exists (line 155). -/
inductive ReachableRecord : ArchiveRecord → Prop where
  | created (dir desc : String) : ReachableRecord (PyT.create_entry_record dir desc)
  | step_prepared (r r2 : ArchiveRecord) (size : Int) (comp : Bool) (now : String) :
      ReachableRecord r → PyT.set_prepared r size comp now = .ok r2 →
      ReachableRecord r2
  | step_archiving_queued (r r2 : ArchiveRecord) (tape : String) :
      ReachableRecord r → PyT.set_archiving_queued r tape = .ok r2 →
      ReachableRecord r2
  | step_archiving (r r2 : ArchiveRecord) (path : String) :
      ReachableRecord r → PyT.set_archiving r path = .ok r2 →
      ReachableRecord r2
  | step_archived (r r2 : ArchiveRecord) (size : Option Int) (now : String) :
      ReachableRecord r → PyT.set_archived r size now = .ok r2 →
      ReachableRecord r2
  | step_archive_commit (r : ArchiveRecord) (target tape : String) :
      ReachableRecord r → r.state = "prepared" → r.compressed ≠ none →
      ReachableRecord (PyT.archive_commit r target tape)
  | step_tape_after_archived (r : ArchiveRecord) (tape : String) :
      ReachableRecord r → r.state = "archived" →
      ReachableRecord { r with tape := some tape }

/-- The amended per-state field discipline: as the claim states it, but
records in state `prepared` may already carry `tape` and `path_on_tape`
(both together) once an archive command has been enqueued for them, and
such an early `path_on_tape` may persist into `archiving_queued`. -/
def fieldsPermitted (r : ArchiveRecord) : Prop :=
  (r.state = "preparing" ∧ r.size = none ∧ r.size_queried = none ∧
    r.compressed = none ∧ r.tape = none ∧ r.path_on_tape = none ∧
    r.archived = none) ∨
  (r.state = "prepared" ∧ r.size ≠ none ∧ r.size_queried ≠ none ∧
    r.compressed ≠ none ∧ r.archived = none ∧
    ((r.tape = none ∧ r.path_on_tape = none) ∨
     (r.tape ≠ none ∧ r.path_on_tape ≠ none))) ∨
  (r.state = "archiving_queued" ∧ r.size ≠ none ∧ r.size_queried ≠ none ∧
    r.compressed ≠ none ∧ r.tape ≠ none ∧ r.archived = none) ∨
  (r.state = "archiving" ∧ r.size ≠ none ∧ r.size_queried ≠ none ∧
    r.compressed ≠ none ∧ r.tape ≠ none ∧ r.path_on_tape ≠ none ∧
    r.archived = none) ∨
  (r.state = "archived" ∧ r.size ≠ none ∧ r.size_queried ≠ none ∧
    r.compressed ≠ none ∧ r.tape ≠ none ∧ r.path_on_tape ≠ none ∧
    r.archived ≠ none)

/-- C4 amended: every reachable record carries exactly the attributes
its state permits, except that the enqueue-time commit of
`handle_archive` may add `tape` and `path_on_tape` to a record still in
state `prepared` (and an early `path_on_tape` may persist into
`archiving_queued`). -/
theorem reachable_fields_permitted (r : ArchiveRecord)
    (h : ReachableRecord r) : fieldsPermitted r := by
  induction h with
  | created dir desc =>
    exact Or.inl ⟨rfl, rfl, rfl, rfl, rfl, rfl, rfl⟩
  | step_prepared r r2 size comp now _ heq ih =>
    unfold PyT.set_prepared at heq
    split at heq
    case isTrue hst =>
      cases heq
      rcases ih with ⟨_, h2, h3, h4, h5, h6, h7⟩ | ⟨hs, _⟩ | ⟨hs, _⟩ | ⟨hs, _⟩ | ⟨hs, _⟩
      · exact Or.inr (Or.inl ⟨rfl, by simp, by simp, by simp, h7,
          Or.inl ⟨h5, h6⟩⟩)
      all_goals (rw [hst] at hs; simp at hs)
    case isFalse => cases heq
  | step_archiving_queued r r2 tape _ heq ih =>
    unfold PyT.set_archiving_queued at heq
    split at heq
    case isTrue hst =>
      cases heq
      rcases ih with ⟨hs, _⟩ | ⟨_, h2, h3, h4, h5, _⟩ | ⟨hs, _⟩ | ⟨hs, _⟩ | ⟨hs, _⟩
      · rw [hst] at hs; simp at hs
      · exact Or.inr (Or.inr (Or.inl ⟨rfl, h2, h3, h4, by simp, h5⟩))
      all_goals (rw [hst] at hs; simp at hs)
    case isFalse => cases heq
  | step_archiving r r2 path _ heq ih =>
    unfold PyT.set_archiving at heq
    split at heq
    case isTrue hst =>
      cases heq
      rcases ih with ⟨hs, _⟩ | ⟨hs, _⟩ | ⟨_, h2, h3, h4, h5, h6⟩ | ⟨hs, _⟩ | ⟨hs, _⟩
      · rw [hst] at hs; simp at hs
      · rw [hst] at hs; simp at hs
      · exact Or.inr (Or.inr (Or.inr (Or.inl
          ⟨rfl, h2, h3, h4, h5, by simp, h6⟩)))
      all_goals (rw [hst] at hs; simp at hs)
    case isFalse => cases heq
  | step_archived r r2 size now _ heq ih =>
    unfold PyT.set_archived at heq
    split at heq
    case isTrue hst =>
      cases heq
      rcases ih with ⟨hs, _⟩ | ⟨hs, _⟩ | ⟨hs, _⟩ |
        ⟨_, h2, h3, h4, h5, h6, _⟩ | ⟨hs, _⟩
      · rw [hst] at hs; simp at hs
      · rw [hst] at hs; simp at hs
      · rw [hst] at hs; simp at hs
      · refine Or.inr (Or.inr (Or.inr (Or.inr
          ⟨rfl, ?_, h3, h4, h5, h6, by simp⟩)))
        rcases size with _ | s
        · simpa using h2
        · simp
      all_goals (rw [hst] at hs; simp at hs)
    case isFalse => cases heq
  | step_archive_commit r target tape _ hst hcomp ih =>
    rcases ih with ⟨hs, _⟩ | ⟨_, h2, h3, h4, h5, _⟩ | ⟨hs, _⟩ | ⟨hs, _⟩ | ⟨hs, _⟩
    · rw [hst] at hs; simp at hs
    · exact Or.inr (Or.inl ⟨hst, h2, h3, h4, h5,
        Or.inr ⟨by simp [PyT.archive_commit], by simp [PyT.archive_commit]⟩⟩)
    all_goals (rw [hst] at hs; simp at hs)
  | step_tape_after_archived r tape _ hst ih =>
    rcases ih with ⟨hs, _⟩ | ⟨hs, _⟩ | ⟨hs, _⟩ | ⟨hs, _⟩ |
      ⟨_, h2, h3, h4, _, h6, h7⟩
    · rw [hst] at hs; simp at hs
    · rw [hst] at hs; simp at hs
    · rw [hst] at hs; simp at hs
    · rw [hst] at hs; simp at hs
    · exact Or.inr (Or.inr (Or.inr (Or.inr
        ⟨hst, h2, h3, h4, by simp, h6, h7⟩)))

/-- The record used to refute C4 as stated: a `prepared` record of size
2e9 kB for which `archive /x AAK001` has passed validation and executed
handlers.py lines 155-156. -/
def preparedCommitted : ArchiveRecord :=
  PyT.archive_commit
    ⟨"/x", "d", "prepared", some 2000000000, some "Jan 01 2024 00:00:00",
      some false, none, none, none⟩ "x" "AAK001"

/-- C4 counterexample: a reachable catalog record that is still in state
`prepared` yet carries `tape` and `path_on_tape` — `handle_archive`
(lines 155-156) sets both at enqueue time, contradicting the claim that
no `prepared` record carries them. -/
theorem prepared_record_with_tape_counterexample :
    ReachableRecord preparedCommitted ∧
    preparedCommitted.state = "prepared" ∧
    preparedCommitted.tape = some "AAK001" ∧
    preparedCommitted.path_on_tape = some "x" := by
  refine ⟨?_, rfl, rfl, by decide⟩
  have h1 : ReachableRecord (PyT.create_entry_record "/x" "d") :=
    ReachableRecord.created "/x" "d"
  have h2 : ReachableRecord
      ⟨"/x", "d", "prepared", some 2000000000, some "Jan 01 2024 00:00:00",
        some false, none, none, none⟩ :=
    ReachableRecord.step_prepared _ _ 2000000000 false "Jan 01 2024 00:00:00"
      h1 rfl
  exact ReachableRecord.step_archive_commit _ "x" "AAK001" h2 rfl (by decide)

/-- Witness for the amended C4 theorem at a freshly created record. -/
theorem reachable_fields_permitted_witness :
    fieldsPermitted (PyT.create_entry_record "/w" "dw") :=
  reachable_fields_permitted (PyT.create_entry_record "/w" "dw")
    (ReachableRecord.created "/w" "dw")

/-- The outcome reported to the client by `handle_archive`, one tag per
reply branch of the source (pytarchive/service/handlers.py, lines
91-166): `notPrepared` = "Folder not prepared yet ...", `wrongState` =
"Folder is in the wrong state ...", `noSpace` = the free-space error
block, `tapeNotFound` = "Requested tape not found ...", `nameTaken` =
"Directory ... already exists on tape ...", `statError` = the caught
`os.stat` error, `alreadyArchiving` = "Folder is already in the process
of being archived", `queued b` = "Archiving queued" (with `b` recording
whether a stale task-removal notice was prefixed). -/
inductive ArchiveResponse where
  | notPrepared : ArchiveResponse
  | wrongState : ArchiveResponse
  | noSpace : ArchiveResponse
  | tapeNotFound : ArchiveResponse
  | nameTaken : ArchiveResponse
  | statError : ArchiveResponse
  | alreadyArchiving : ArchiveResponse
  | queued : Bool → ArchiveResponse
deriving DecidableEq, Repr


/-- `entry["size"]`: the value, or a `KeyError` when the key is absent. -/
def getSize (entry : ArchiveRecord) : Except String Int :=
  match entry.size with
  | none => .error "KeyError: size"
  | some s => .ok s

/-- `entry["compressed"]`: the value, or a `KeyError` when absent. -/
def getCompressed (entry : ArchiveRecord) : Except String Bool :=
  match entry.compressed with
  | none => .error "KeyError: compressed"
  | some c => .ok c

lemma except_ok_bind {ε α β : Type} (a : α) (f : α → Except ε β) :
    (Except.ok a : Except ε α).bind f = f a := rfl

namespace PyT

/-- The sum `sum(e["size"] for e in
JsonDatabase().get_directories_on_tape(args.tapelabel))` of
`handle_archive` line 108: fold the sizes of all records whose `tape`
equals the label (`get_directories_on_tape`, identical in the in-repo
pyarchive db.py, filters by `folder.get("tape") == tape`). -/
def on_tape_sum (db : List ArchiveRecord) (tapelabel : String) :
    Except String Int :=
  List.foldlM (fun (acc : Int) (r : ArchiveRecord) =>
      (getSize r).map (fun s => acc + s)) 0
    (db.filter (fun r => r.tape = some tapelabel))

/-- `target_filename = args.targetname or
JsonDatabase().suggest_ontape_name(entry)` (line 126): Python `or`
falls back when the flag is absent or empty. -/
def resolveTarget (targetname : Option String) (suggested : String) :
    String :=
  match targetname with
  | none => suggested
  | some t => if t = "" then suggested else t

/-- The stale-task scan `[i for i in queue if i.args[0] == args.folder
and i.coroutine == "archive"]` (lines 144-146).  Queue items always
carry at least one argument — an empty `args` would raise `IndexError`
in the source — so `args.head?` is their `args[0]`. -/
def existingArchiveTasks (queue : List WorkItem) (folder : String) :
    List WorkItem :=
  queue.filter (fun i =>
    i.args.head? = some (JsonVal.str folder) && i.coroutine = "archive")

/-- The enqueue tail of `handle_archive` (lines 143-166): check
`entry["compressed"]`, either refuse because a healthy archive task for
the folder is running, or remove the stale task (first match) and append
exactly one fresh archive `WorkItem`, committing `path_on_tape` and
`tape` onto the record (lines 155-156, `archive_commit`). -/
def handle_archive_enqueue (db : List ArchiveRecord) (queue : List WorkItem)
    (folder tapelabel target : String) (priority : Int) (now : String)
    (seed : Nat) (entry : ArchiveRecord) :
    Except String (List ArchiveRecord × List WorkItem × ArchiveResponse) :=
  (getCompressed entry).bind (fun _ =>
    let newItem := WorkItem.fresh priority "archive"
      [JsonVal.str folder, JsonVal.str tapelabel, JsonVal.str target]
      ("Archiving folder: " ++ folder ++ " to tape " ++ tapelabel) now seed
    let db2 := replaceFirst db entry (archive_commit entry target tapelabel)
    match existingArchiveTasks queue folder with
    | [] => .ok (db2, queue ++ [newItem], .queued false)
    | ex :: _ =>
      if ex.running && ex.error_msg = "" then
        .ok (db, queue, .alreadyArchiving)
      else
        .ok (db2, queue.erase ex ++ [newItem], .queued true))

/-- The validation chain of `handle_archive` (lines 108-141), after the
record has been found `prepared` and its size and the tape's committed
sum are known: free space, tape presence, target-name uniqueness,
`os.stat` of the source. -/
def handle_archive_checked (db : List ArchiveRecord) (queue : List WorkItem)
    (folder tapelabel : String) (targetname : Option String)
    (priority maxsize : Int) (slots : LibStatus) (suggested : String)
    (statOK : Bool) (now : String) (seed : Nat) (entry : ArchiveRecord)
    (size on_tape : Int) :
    Except String (List ArchiveRecord × List WorkItem × ArchiveResponse) :=
  if maxsize < on_tape + size then .ok (db, queue, .noSpace)
  else if find_tape slots tapelabel = none then .ok (db, queue, .tapeNotFound)
  else
    if resolveTarget targetname suggested = "" ∨
        some (resolveTarget targetname suggested) ∈
          ((db.filter (fun r => r.tape = some tapelabel)).filter
            (fun r => r.state = "archived")).map (fun r => r.path_on_tape)
    then .ok (db, queue, .nameTaken)
    else if ¬ statOK then .ok (db, queue, .statError)
    else handle_archive_enqueue db queue folder tapelabel
      (resolveTarget targetname suggested) priority now seed entry

/-- Embeds `handle_archive` (pytarchive/service/handlers.py, lines
91-166).  `db` is the catalog data, `queue` the work list; `slots` stands
for the library status consulted by `Library().find_tape`; `suggested`
is the value of `JsonDatabase().suggest_ontape_name(entry)` (that
function lives in the missing db.py, so its result is a parameter);
`statOK` is whether `os.stat(args.folder)` succeeds; `now`/`seed` are the
creation time and hash seed of the fresh `WorkItem`.  A `.error` is an
uncaught Python exception (`KeyError`); every `.ok` carries the catalog,
the queue after the call and the reply tag. -/
def handle_archive (db : List ArchiveRecord) (queue : List WorkItem)
    (folder tapelabel : String) (targetname : Option String)
    (priority maxsize : Int) (slots : LibStatus) (suggested : String)
    (statOK : Bool) (now : String) (seed : Nat) :
    Except String (List ArchiveRecord × List WorkItem × ArchiveResponse) :=
  (List.find? (fun r => r.original_directory = folder) db).elim
    (.ok (db, queue, .notPrepared))
    (fun entry =>
      if entry.state ≠ "prepared" then .ok (db, queue, .wrongState)
      else
        (getSize entry).bind (fun size =>
          (on_tape_sum db tapelabel).bind (fun on_tape =>
            handle_archive_checked db queue folder tapelabel targetname
              priority maxsize slots suggested statOK now seed entry
              size on_tape)))

end PyT

lemma usedKilobytes_eq_filter_sum (db : List ArchiveRecord) (t : String) :
    usedKilobytes db t =
      ((db.filter (fun r => r.tape = some t)).map
        (fun r => r.size.getD 0)).sum := by
  induction db with
  | nil => simp [usedKilobytes]
  | cons r rest ih =>
    rw [usedKilobytes_cons, ih, List.filter_cons]
    by_cases h : r.tape = some t
    · simp [h]
    · simp [h]

lemma on_tape_sum_ok (db : List ArchiveRecord) (t : String)
    (hwf : ∀ r ∈ db, r.tape = some t → r.size ≠ none) :
    PyT.on_tape_sum db t = .ok (usedKilobytes db t) := by
  unfold PyT.on_tape_sum
  have haux : ∀ (l : List ArchiveRecord), (∀ r ∈ l, r.size ≠ none) →
      ∀ init : Int,
        List.foldlM (fun (acc : Int) (r : ArchiveRecord) =>
          (getSize r).map (fun s => acc + s)) init l =
        .ok (init + (l.map (fun r => r.size.getD 0)).sum) := by
    intro l
    induction l with
    | nil =>
      intro _ init
      rw [List.foldlM_nil]
      show Except.ok init = Except.ok (init + ([] : List Int).sum)
      rw [List.sum_nil, Int.add_zero]
    | cons r rest ih =>
      intro hl init
      rcases hs : r.size with _ | s
      · exact absurd hs (hl r (by simp))
      · rw [List.foldlM_cons]
        rw [show (getSize r).map (fun x => init + x) = Except.ok (init + s) from
          by simp [getSize, hs, Except.map]]
        show List.foldlM _ (init + s) rest = _
        rw [ih (fun x hx => hl x (by simp [hx])) (init + s)]
        simp [hs, Int.add_assoc]
  rw [haux _ (fun r hr => hwf r (List.mem_filter.mp hr).1
      (by simpa using (List.mem_filter.mp hr).2)) 0]
  rw [usedKilobytes_eq_filter_sum]
  simp

/-- C6: with the named record present and `prepared`, `handle_archive`
refuses to enqueue and leaves both the catalog and the work queue
completely unchanged whenever the record's size plus the kilobytes
already committed to the tape exceeds `tape_max_size`, or the tape is
not in the library, or the resolved target filename is empty or already
used by an archived record on that tape (or the source directory cannot
be stat-ed); only when every validation passes does the handler append
exactly one archive `WorkItem` at the end of the queue (after removing a
stale archive task for the same folder, unless that task is running and
healthy, in which case it refuses and changes nothing). -/
theorem handle_archive_validation_guards
    (db : List ArchiveRecord) (queue : List WorkItem)
    (folder tapelabel : String) (targetname : Option String)
    (priority maxsize : Int) (slots : LibStatus) (suggested : String)
    (statOK : Bool) (now : String) (seed : Nat)
    (entry : ArchiveRecord) (S : Int) (comp : Bool)
    (hfind : List.find? (fun r => r.original_directory = folder) db =
      some entry)
    (hstate : entry.state = "prepared") (hsize : entry.size = some S)
    (hcomp : entry.compressed = some comp)
    (hwf : ∀ r ∈ db, r.tape = some tapelabel → r.size ≠ none) :
    (maxsize < usedKilobytes db tapelabel + S →
      PyT.handle_archive db queue folder tapelabel targetname priority
        maxsize slots suggested statOK now seed =
          .ok (db, queue, .noSpace)) ∧
    (¬ maxsize < usedKilobytes db tapelabel + S →
      PyT.find_tape slots tapelabel = none →
      PyT.handle_archive db queue folder tapelabel targetname priority
        maxsize slots suggested statOK now seed =
          .ok (db, queue, .tapeNotFound)) ∧
    (¬ maxsize < usedKilobytes db tapelabel + S →
      PyT.find_tape slots tapelabel ≠ none →
      (PyT.resolveTarget targetname suggested = "" ∨
        some (PyT.resolveTarget targetname suggested) ∈
          ((db.filter (fun r => r.tape = some tapelabel)).filter
            (fun r => r.state = "archived")).map (fun r => r.path_on_tape)) →
      PyT.handle_archive db queue folder tapelabel targetname priority
        maxsize slots suggested statOK now seed =
          .ok (db, queue, .nameTaken)) ∧
    (¬ maxsize < usedKilobytes db tapelabel + S →
      PyT.find_tape slots tapelabel ≠ none →
      ¬ (PyT.resolveTarget targetname suggested = "" ∨
        some (PyT.resolveTarget targetname suggested) ∈
          ((db.filter (fun r => r.tape = some tapelabel)).filter
            (fun r => r.state = "archived")).map (fun r => r.path_on_tape)) →
      statOK = false →
      PyT.handle_archive db queue folder tapelabel targetname priority
        maxsize slots suggested statOK now seed =
          .ok (db, queue, .statError)) ∧
    (¬ maxsize < usedKilobytes db tapelabel + S →
      PyT.find_tape slots tapelabel ≠ none →
      ¬ (PyT.resolveTarget targetname suggested = "" ∨
        some (PyT.resolveTarget targetname suggested) ∈
          ((db.filter (fun r => r.tape = some tapelabel)).filter
            (fun r => r.state = "archived")).map (fun r => r.path_on_tape)) →
      statOK = true →
      (PyT.existingArchiveTasks queue folder = [] →
        PyT.handle_archive db queue folder tapelabel targetname priority
          maxsize slots suggested statOK now seed =
            .ok (replaceFirst db entry
                  (PyT.archive_commit entry
                    (PyT.resolveTarget targetname suggested) tapelabel),
                queue ++ [WorkItem.fresh priority "archive"
                  [JsonVal.str folder, JsonVal.str tapelabel,
                    JsonVal.str (PyT.resolveTarget targetname suggested)]
                  ("Archiving folder: " ++ folder ++ " to tape " ++ tapelabel)
                  now seed],
                .queued false)) ∧
      (∀ ex tl, PyT.existingArchiveTasks queue folder = ex :: tl →
        (ex.running = true ∧ ex.error_msg = "" →
          PyT.handle_archive db queue folder tapelabel targetname priority
            maxsize slots suggested statOK now seed =
              .ok (db, queue, .alreadyArchiving)) ∧
        (¬ (ex.running = true ∧ ex.error_msg = "") →
          PyT.handle_archive db queue folder tapelabel targetname priority
            maxsize slots suggested statOK now seed =
              .ok (replaceFirst db entry
                    (PyT.archive_commit entry
                      (PyT.resolveTarget targetname suggested) tapelabel),
                  queue.erase ex ++ [WorkItem.fresh priority "archive"
                    [JsonVal.str folder, JsonVal.str tapelabel,
                      JsonVal.str (PyT.resolveTarget targetname suggested)]
                    ("Archiving folder: " ++ folder ++ " to tape " ++
                      tapelabel) now seed],
                  .queued true)))) := by
  have hontape := on_tape_sum_ok db tapelabel hwf
  have hbase : PyT.handle_archive db queue folder tapelabel targetname
      priority maxsize slots suggested statOK now seed =
      PyT.handle_archive_checked db queue folder tapelabel targetname
        priority maxsize slots suggested statOK now seed entry S
        (usedKilobytes db tapelabel) := by
    unfold PyT.handle_archive
    rw [hfind, Option.elim_some]
    rw [if_neg (show ¬ (entry.state ≠ "prepared") from by simp [hstate])]
    rw [show getSize entry = Except.ok S from by simp [getSize, hsize]]
    rw [except_ok_bind, hontape, except_ok_bind]
  refine ⟨?_, ?_, ?_, ?_, ?_⟩
  · intro hspace
    rw [hbase]
    unfold PyT.handle_archive_checked
    rw [if_pos hspace]
  · intro hspace htape
    rw [hbase]
    unfold PyT.handle_archive_checked
    rw [if_neg hspace, if_pos htape]
  · intro hspace htape hbad
    rw [hbase]
    unfold PyT.handle_archive_checked
    rw [if_neg hspace, if_neg htape, if_pos hbad]
  · intro hspace htape hbad hstat
    rw [hbase]
    unfold PyT.handle_archive_checked
    rw [if_neg hspace, if_neg htape, if_neg hbad,
      if_pos (show ¬ statOK = true from by simp [hstat])]
  · intro hspace htape hbad hstat
    have htail : PyT.handle_archive db queue folder tapelabel targetname
        priority maxsize slots suggested statOK now seed =
        PyT.handle_archive_enqueue db queue folder tapelabel
          (PyT.resolveTarget targetname suggested) priority now seed entry := by
      rw [hbase]
      unfold PyT.handle_archive_checked
      rw [if_neg hspace, if_neg htape, if_neg hbad,
        if_neg (show ¬¬ statOK = true from by simp [hstat])]
    constructor
    · intro hempty
      rw [htail]
      unfold PyT.handle_archive_enqueue
      rw [show getCompressed entry = Except.ok comp from
        by simp [getCompressed, hcomp]]
      simp only [except_ok_bind]
      rw [hempty]
    · intro ex tl hcons
      constructor
      · intro hrun
        rw [htail]
        unfold PyT.handle_archive_enqueue
        rw [show getCompressed entry = Except.ok comp from
          by simp [getCompressed, hcomp]]
        simp only [except_ok_bind]
        rw [hcons]
        show (if ex.running && ex.error_msg = "" then _ else _) = _
        rw [if_pos (show (ex.running && ex.error_msg = "") = true from
          by simp [hrun.1, hrun.2])]
      · intro hrun
        rw [htail]
        unfold PyT.handle_archive_enqueue
        rw [show getCompressed entry = Except.ok comp from
          by simp [getCompressed, hcomp]]
        simp only [except_ok_bind]
        rw [hcons]
        show (if ex.running && ex.error_msg = "" then _ else _) = _
        rw [if_neg (show ¬ (ex.running && ex.error_msg = "") = true from by
          intro hcon
          simp at hcon
          exact hrun hcon)]

/-- The catalog of end-to-end scenario 3: tape AAK001 already holds a
single 16e9-kB record; `/x` is `prepared` with size 2e9 kB. -/
def archiveGuardDb : List ArchiveRecord :=
  [⟨"/big", "d", "archived", some 16000000000, some "Jan 01 2024 00:00:00",
      some false, some "AAK001", some "big", some "Jan 02 2024 00:00:00"⟩,
   ⟨"/x", "dx", "prepared", some 2000000000, some "Jan 03 2024 00:00:00",
      some false, none, none, none⟩]

/-- Witness for C6 on scenario 3: `archive /x AAK001` with
`tape_max_size = 17e9` is refused with the free-space error and neither
the catalog nor the (empty) queue changes. -/
theorem handle_archive_validation_guards_witness :
    PyT.handle_archive archiveGuardDb [] "/x" "AAK001" none 100
      17000000000 testSlots "x" true "Feb 01 2024 00:00:00" 9 =
      .ok (archiveGuardDb, [], .noSpace) :=
  (handle_archive_validation_guards archiveGuardDb [] "/x" "AAK001" none 100
    17000000000 testSlots "x" true "Feb 01 2024 00:00:00" 9
    ⟨"/x", "dx", "prepared", some 2000000000, some "Jan 03 2024 00:00:00",
      some false, none, none, none⟩ 2000000000 false
    (by decide) rfl rfl rfl (by decide)).1 (by decide)

/-- The catalog as the prepare task sees it: `data` is the in-memory
`JsonDatabase().data` list, `file` the contents of the persisted
`database.json` (rewritten only by `_write_json`). -/
structure PrepDb where
  data : List ArchiveRecord
  file : List ArchiveRecord
deriving DecidableEq, Repr

/-- The abort flag of a prepare run, as the monotone sequence of its
`is_set()` observations: the consecutive checks are numbered 0, 1, 2, …
in program order and `isSetAt flagAt k` is the value the `k`-th check
observes (`flagAt = some n`: the flag is set from the `n`-th check on;
`none`: never set).  Monotonicity of `asyncio.Event` is built in. -/
def isSetAt (flagAt : Option Nat) (k : Nat) : Bool :=
  match flagAt with
  | none => false
  | some n => decide (n ≤ k)

namespace PyT

/-- The decisive abort check of `run_command`
(pytarchive/service/command_runner.py, lines 88-95), reached after the
child is reaped: if the abort event is set, `CalledProcessError` is
raised; the exit code is never consulted (see the C2 analysis).  One
`is_set()` observation is consumed. -/
def run_command_abort_check (flagAt : Option Nat) (k : Nat) :
    Except String Unit :=
  if isSetAt flagAt k then .error "CalledProcessError" else .ok ()

/-- Embeds `_get_size` (pytarchive/service/tasks.py, lines 19-30): run
`du -s` through `run_command` (observation `k`), then check the abort
flag once more (observation `k+1`, line 27) and return 0 if it is set,
else the parsed first column `duOutput`.  Returns the size and the next
observation index. -/
def _get_size (flagAt : Option Nat) (k : Nat) (duOutput : Int) :
    Except String (Int × Nat) :=
  if isSetAt flagAt k then .error "CalledProcessError"
  else if isSetAt flagAt (k + 1) then .ok (0, k + 2)
  else .ok (duOutput, k + 2)

/-- Embeds the `prepare` task (pytarchive/service/tasks.py, lines 33-67).
`duSize`, `duInodes` and `tarSize` are the numeric outputs of the three
possible `du -s` invocations; `now` is the `set_prepared` timestamp.  At
each of the three checkpoints (lines 39, 49, 59) a set abort flag makes
the task call `JsonDatabase().data.remove(entry)` — which mutates only
the in-memory list, no `_write_json` is issued — and return `None`.  A
`.error` is an exception propagating to the worker (`ValueError` from
`_get_folder`, `CalledProcessError` from an aborted or failed
`run_command`, `AssertionError` from line 63, or an invalid-transition
error from `set_prepared`). -/
def prepare (db : PrepDb) (folder : String) (compressFlag : Bool)
    (flagAt : Option Nat) (duSize duInodes tarSize : Int) (now : String) :
    Except String (PrepDb × Option Int) :=
  (List.find? (fun r => r.original_directory = folder) db.data).elim
    (.error ("ValueError: Folder with original_directory " ++ folder ++
      " not found."))
    (fun entry =>
      (_get_size flagAt 0 duSize).bind (fun sk =>
        if isSetAt flagAt sk.2 then
          .ok ({ db with data := db.data.erase entry }, none)
        else
          (_get_size flagAt (sk.2 + 1) duInodes).bind (fun ik =>
            let compress := decide (ik.1 > 500000) || compressFlag
            if isSetAt flagAt ik.2 then
              .ok ({ db with data := db.data.erase entry }, none)
            else
              ((if compress then
                  (run_command_abort_check flagAt (ik.2 + 1)).bind (fun _ =>
                    _get_size flagAt (ik.2 + 2) tarSize)
                else .ok (sk.1, ik.2 + 1) : Except String (Int × Nat))).bind
                (fun fk =>
                  if isSetAt flagAt fk.2 then
                    .ok ({ db with data := db.data.erase entry }, none)
                  else
                    if entry ∈ db.data then
                      (set_prepared entry fk.1 compress now).bind
                        (fun entry2 =>
                          let data2 := replaceFirst db.data entry entry2
                          .ok (({ data := data2, file := data2 } : PrepDb),
                            some fk.1))
                    else .error "AssertionError"))))

end PyT

/-- The one-record catalog (in memory and on disk) of a prepare run for
`/p`. -/
def prepDb0 : PrepDb :=
  { data := [⟨"/p", "dp", "preparing", none, none, none, none, none, none⟩],
    file := [⟨"/p", "dp", "preparing", none, none, none, none, none, none⟩] }

/-- C8 (code_bug): evaluating the pytarchive `prepare` task on aborted
runs.  (1) When the abort flag is set while the first `du` runs
(first observation, index 0), `run_command` raises `CalledProcessError`
(the C2 inversion), so `prepare` propagates an exception instead of
cleaning up and returning — the worker then quarantines the item instead
of removing it as a success.  (2) When the flag is first observed at the
first checkpoint (observation index 2), the task does remove the record
from the in-memory list and returns normally — but no `_write_json` is
issued, so the persisted catalog file still contains the record,
contrary to the claim.  (3) An un-aborted run prepares the record and
persists it. -/
theorem prepare_abort_divergence :
    PyT.prepare prepDb0 "/p" false (some 0) 12 600001 34
        "Jan 05 2024 00:00:00" = .error "CalledProcessError" ∧
    PyT.prepare prepDb0 "/p" false (some 2) 12 600001 34
        "Jan 05 2024 00:00:00" =
      .ok ({ data := [],
             file := [⟨"/p", "dp", "preparing", none, none, none, none,
               none, none⟩] }, none) ∧
    PyT.prepare prepDb0 "/p" false none 12 400000 34
        "Jan 05 2024 00:00:00" =
      .ok ({ data := [⟨"/p", "dp", "prepared", some 12,
               some "Jan 05 2024 00:00:00", some false, none, none, none⟩],
             file := [⟨"/p", "dp", "prepared", some 12,
               some "Jan 05 2024 00:00:00", some false, none, none,
               none⟩] }, some 12) := by
  refine ⟨rfl, rfl, rfl⟩
